import Mathlib

/-!
Verification of the News-Pulse-AI backend core (`app.js`) against its
natural-language specification: the dedup filter, the feed pipeline's
category fallback, the breaking-news scorer, the Telegram webhook
ingestion (studio ring buffer), and the transliteration helper.

Each definition is a shallow embedding of the corresponding JavaScript in
`app.js`; line references point there.
-/

namespace NewsPulse

/-- A feed item as assembled in the `/api/feed` handler (app.js lines 131-139). -/
structure FeedItem where
  title : String
  link : String
  summary : String
  bullets : List String
  pubDate : Option String
  source : String
  image : Option String
deriving DecidableEq, Repr

/-- Recursion core of `dedupeByLink` (app.js lines 69-71): the JS walks the
list with `filter`, keeping an item iff its `link` is not yet in the mutable
`Set s`, and adding it when kept.  `seen` is the contents of that set. -/
def dedupeGo : List FeedItem → List String → List FeedItem
  | [], _ => []
  | i :: rest, seen =>
    if i.link ∈ seen then dedupeGo rest seen
    else i :: dedupeGo rest (i.link :: seen)

/-- `dedupeByLink` (app.js lines 69-71): starts from an empty seen-set. -/
def dedupeByLink (items : List FeedItem) : List FeedItem :=
  dedupeGo items []

/-- A studio post as assembled by the Telegram webhook handler
(app.js lines 269-273 and 279). -/
structure StudioPost where
  id : Int
  type : String
  file_id : Option String
  title : String
  caption : String
  date : Int
  tags : List String
deriving DecidableEq, Repr

/-- Ring-buffer capacity (app.js line 252). -/
def studioMax : Nat := 50

/-- `push` from the webhook handler (app.js line 262): `unshift` the new
post onto the head, then `pop` the tail when the length exceeds
`studioMax`.  The head of the list is the most recent post. -/
def push (buf : List StudioPost) (p : StudioPost) : List StudioPost :=
  let b := p :: buf
  if b.length > studioMax then b.dropLast else b

/-- The buffer obtained from the empty initial buffer (app.js line 114)
after a sequence of webhook pushes, oldest first. -/
def pushAll (ps : List StudioPost) : List StudioPost :=
  ps.foldl push []

/-- The publish-time information carried by one RSS entry as the breaking
handler sees it (app.js lines 155-156): `new Date(i.pubDate || 0)` yields
epoch time 0 when the field is missing/empty, `NaN` when present but
unparseable, and the parsed value in milliseconds otherwise. -/
inductive PubField
  | missing
  | unparseable
  | valid (ms : ℤ)
deriving DecidableEq, Repr

/-- One syndication entry as consumed by `/api/breaking`. -/
structure BreakingEntry where
  title : Option String
  link : String
  pub : PubField
deriving Repr

/-- Result of `new Date(i.pubDate || 0).getTime()`: `none` models `NaN`. -/
def getTimeMs : PubField → Option ℤ
  | .missing => some 0
  | .unparseable => none
  | .valid t => some t

/-- `ageMin` (app.js line 156): `isNaN(pub.getTime()) ? 99999 :
(Date.now() - pub.getTime()) / 60000`, in exact rational arithmetic. -/
def ageMin (now : ℤ) (p : PubField) : ℚ :=
  match getTimeMs p with
  | none => 99999
  | some t => ((now - t : ℤ) : ℚ) / 60000

/-- Whether `pat` occurs as a contiguous substring of `s`. -/
def listHasInfix (pat : List Char) : List Char → Bool
  | [] => pat.isEmpty
  | c :: rest => pat.isPrefixOf (c :: rest) || listHasInfix pat rest

/-- The regex test `/(breaking|live|updates?)/i.test(title)` (app.js line
157): an unanchored, case-insensitive search, i.e. the lower-cased title
contains "breaking", "live" or "update" (the optional trailing `s` is
redundant for a containment test). -/
def titleHasBreakingWord (t : String) : Bool :=
  let s := t.toList.map Char.toLower
  listHasInfix "breaking".toList s || listHasInfix "live".toList s ||
    listHasInfix "update".toList s

/-- The keyword factor of app.js line 157: 2 on a keyword match, else 1;
the title defaults to `""` when absent (`i.title || ""`). -/
def keywordBoost (title : Option String) : ℚ :=
  if titleHasBreakingWord (title.getD "") then 2 else 1

/-- The score of app.js line 157: `boost * (1 / Math.max(1, ageMin))`. -/
def score (now : ℤ) (e : BreakingEntry) : ℚ :=
  keywordBoost e.title * (1 / max 1 (ageMin now e.pub))

/-- One size variant of a Telegram photo attachment; the handler only reads
its `file_id`. -/
structure PhotoSize where
  file_id : String
deriving DecidableEq, Repr

/-- A Telegram video attachment; the handler only reads its `file_id`. -/
structure TgVideo where
  file_id : String
deriving DecidableEq, Repr

/-- A Telegram message or channel post as read by the webhook handler
(app.js lines 264-279).  `chat_type` flattens `m.chat?.type`, the only part
of the chat object the handler touches; `photo` is Telegram's list of size
variants, ordered smallest to largest, so `slice(-1)[0]` is the
highest-resolution one. -/
structure TgMessage where
  message_id : Int
  chat_type : Option String
  photo : Option (List PhotoSize)
  video : Option TgVideo
  text : Option String
  caption : Option String
  date : Int
deriving DecidableEq, Repr

/-- A webhook update body (app.js lines 260-261). -/
structure TgUpdate where
  channel_post : Option TgMessage
  message : Option TgMessage
deriving DecidableEq, Repr

/-- The media classification of app.js lines 265-267 (channel branch) and
275-277 (private branch): start from `type="text", file_id=null`, then two
*sequential* `if`s — the photo check first (`ch.photo?.length` is truthy
iff the list is present and nonempty; `photo.slice(-1)[0]` is its last
element), then the video check, which overwrites the photo assignment. -/
def classifyMedia (photo : Option (List PhotoSize)) (video : Option TgVideo) :
    String × Option String :=
  let st0 : String × Option String := ("text", none)
  let st1 := match photo with
    | some l => if l.length ≠ 0 then ("photo", l.getLast?.map PhotoSize.file_id) else st0
    | none => st0
  match video with
  | some v => ("video", some v.file_id)
  | none => st1

/-- JS `a || b` for a possibly-absent string `a`: `b` when `a` is absent or
empty (both falsy), else `a`. -/
def jsOrString (a : Option String) (b : String) : String :=
  match a with
  | some s => if s = "" then b else s
  | none => b

/-- The body `(m.text || m.caption || "")` (app.js lines 268 and 278). -/
def bodyOf (text caption : Option String) : String :=
  jsOrString text (jsOrString caption "")

/-- `body.split("\n")[0]`: the prefix of the string before the first
newline (split always yields at least one piece, so `[0]` is defined). -/
def firstLineChars : List Char → List Char
  | [] => []
  | c :: rest => if c = '\n' then [] else c :: firstLineChars rest

/-- The derived title `text.split("\n")[0]?.slice(0, 100) || ""`
(app.js lines 271 and 279): first line, truncated to 100 characters (the
final `|| ""` only maps an empty first line to itself). -/
def titleOf (body : String) : String :=
  String.mk ((firstLineChars body.toList).take 100)

/-- The StudioPost object pushed by either webhook branch
(app.js lines 269-273 and 279). -/
def mkPost (m : TgMessage) : StudioPost :=
  let tf := classifyMedia m.photo m.video
  let body := bodyOf m.text m.caption
  { id := m.message_id, type := tf.1, file_id := tf.2,
    title := titleOf body, caption := body, date := m.date, tags := [] }

/-- `u.channel_post?.chat?.type` / `u.message?.chat?.type`. -/
def chatTypeOf (m : Option TgMessage) : Option String :=
  m.bind TgMessage.chat_type

/-- The branch structure of app.js lines 264-280: `if (ch?.chat?.type ===
"channel") … else if (msg?.chat?.type === "private") … ` and otherwise no
buffer change.  The inner `match`es cannot take their `none` arm: the guard
already forces the message to be present. -/
def handleUpdate (u : TgUpdate) (buf : List StudioPost) : List StudioPost :=
  if chatTypeOf u.channel_post = some "channel" then
    match u.channel_post with
    | some ch => push buf (mkPost ch)
    | none => buf
  else if chatTypeOf u.message = some "private" then
    match u.message with
    | some m => push buf (mkPost m)
    | none => buf
  else buf

/-- Truthiness of `process.env.ADMIN_KEY` (app.js line 255): the variable
is set to a nonempty string. -/
def adminKeySet : Option String → Bool
  | none => false
  | some s => s ≠ ""

/-- The `/telegram/webhook` handler (app.js lines 253-283): when an admin
key is configured and the `x-telegram-bot-api-secret-token` header differs
from it, respond 401 untouched; otherwise ingest the update and respond
200.  Returns the HTTP status together with the updated buffer. -/
def telegramWebhook (adminKey secret : Option String) (u : TgUpdate)
    (buf : List StudioPost) : Nat × List StudioPost :=
  if adminKeySet adminKey ∧ secret ≠ adminKey then (401, buf)
  else (200, handleUpdate u buf)

/-- The "India" source list (app.js line 77). -/
def indiaUrls : List String :=
  ["https://feeds.feedburner.com/ndtvnews-top-stories",
   "https://www.thehindu.com/news/national/feeder/default.rss"]

/-- The static category → source-URL table (app.js lines 74-82). -/
def sources : List (String × List String) :=
  [("Hyderabad", ["https://telanganatoday.com/hyderabad/feed"]),
   ("Telangana", ["https://telanganatoday.com/telangana/feed",
      "https://www.thehindu.com/news/national/feeder/default.rss"]),
   ("India", indiaUrls),
   ("International",
      ["https://www.thehindu.com/news/international/feeder/default.rss"]),
   ("Sports", ["https://feeds.feedburner.com/ndtvsports-latest",
      "https://www.thehindu.com/sport/feeder/default.rss"]),
   ("Gadgets", ["https://feeds.feedburner.com/gadgets360-latest",
      "https://www.thehindu.com/sci-tech/technology/feeder/default.rss"]),
   ("Health", ["https://www.thehindu.com/sci-tech/health/feeder/default.rss"])]

/-- The property names every plain object literal inherits from
`Object.prototype` (Node 22), the `__proto__` accessor included.  Reading
any of them on `sources` yields a truthy non-array value (a function, or
`Object.prototype` itself for `__proto__`). -/
def objectPrototypeKeys : List String :=
  ["constructor", "hasOwnProperty", "isPrototypeOf", "propertyIsEnumerable",
   "toLocaleString", "toString", "valueOf", "__proto__",
   "__defineGetter__", "__defineSetter__", "__lookupGetter__",
   "__lookupSetter__"]

/-- The possible results of the JS property read `sources[category]`
(app.js line 122): an own key yields its URL array; otherwise the read
walks the prototype chain, so an `Object.prototype` property name yields a
truthy non-array value; any other name yields `undefined`. -/
inductive SourcesRead
  | arr (urls : List String)
  | protoValue
  | undefinedRead
deriving DecidableEq, Repr

/-- The property read `sources[category]` on the object literal `sources`:
own keys shadow the prototype chain; a miss on both is `undefined`. -/
def sourcesRead (category : String) : SourcesRead :=
  match List.lookup category sources with
  | some us => .arr us
  | none =>
    if category ∈ objectPrototypeKeys then .protoValue else .undefinedRead

/-- `sources[category] || sources.India` (app.js line 122): only
`undefined` is falsy and falls back to the India list; own-key arrays and
the inherited prototype values are all truthy and pass through unchanged. -/
def urlsValue (category : String) : SourcesRead :=
  match sourcesRead category with
  | .undefinedRead => .arr indiaUrls
  | v => v

/-- The fan-out collection loop of app.js lines 123-142, with the
per-source fetch + parse + summarize step abstracted as `fetchItems` (it is
network I/O; per-source failures yield `[]` there).  Cross-source
completion order is an accepted nondeterminism of the source; the claims
proved below do not depend on it. -/
def collectItems (fetchItems : String → List FeedItem) :
    List String → List FeedItem
  | [] => []
  | u :: rest => fetchItems u ++ collectItems fetchItems rest

/-- The two responses `/api/feed` can send: the 200 body
`{category, items}` of app.js line 144, or the 500 body
`{error: "feed_failed"}` of app.js line 145, which carries no category and
no items. -/
inductive FeedResponse
  | ok (category : String) (items : List FeedItem)
  | failed
deriving DecidableEq, Repr

/-- The HTTP status of a `/api/feed` response (app.js lines 144-145). -/
def FeedResponse.status : FeedResponse → Nat
  | .ok _ _ => 200
  | .failed => 500

/-- The `category` field of the response body, if it has one. -/
def FeedResponse.categoryField : FeedResponse → Option String
  | .ok c _ => some c
  | .failed => none

/-- The `items` field of the response body, if it has one. -/
def FeedResponse.itemsField : FeedResponse → Option (List FeedItem)
  | .ok _ its => some its
  | .failed => none

/-- The `/api/feed` handler (app.js lines 119-146): destructure the query
parameter with default "India", resolve `sources[category] ||
sources.India`, and collect, dedupe and answer 200 echoing the requested
category name.  When the resolved value is not an array — a prototype-chain
hit such as "constructor" — `urls.map` (line 124) throws a TypeError inside
the `try`, and the `catch` (line 145) answers 500 `feed_failed`;
the `.undefinedRead` arm is unreachable after the `||` fallback. -/
def feedHandler (categoryParam : Option String)
    (fetchItems : String → List FeedItem) : FeedResponse :=
  let category := categoryParam.getD "India"
  match urlsValue category with
  | .arr us => .ok category (dedupeByLink (collectItems fetchItems us))
  | .protoValue => .failed
  | .undefinedRead => .failed

/-- One global literal-pattern replacement pass, scanning left to right and
replacing non-overlapping occurrences — the semantics of
`out.replace(/lit/g, rep)` for a literal pattern.  The first argument is
fuel, instantiated with the subject length (enough because every step
consumes at least one character). -/
def replaceFuel : Nat → List Char → List Char → List Char → List Char
  | 0, s, _, _ => s
  | _ + 1, [], _, _ => []
  | n + 1, c :: rest, pat, rep =>
    if pat ≠ [] ∧ pat.isPrefixOf (c :: rest) then
      rep ++ replaceFuel n ((c :: rest).drop pat.length) pat rep
    else c :: replaceFuel n rest pat rep

/-- `s.replace(/pat/g, rep)` for a literal pattern `pat`. -/
def applyRule (s pat rep : String) : String :=
  String.mk (replaceFuel s.toList.length s.toList pat.toList rep.toList)

/-- The ordered rule table of `toRomanHindi` (app.js lines 55-65), in
source order; the alternation `/श|ष/` is two consecutive entries with the
same replacement. -/
def hindiRules : List (String × String) :=
  [("क्ष", "ksh"), ("ज्ञ", "gya"), ("त्र", "tra"),
   ("अ", "a"), ("आ", "aa"), ("इ", "i"), ("ई", "ee"), ("उ", "u"), ("ऊ", "oo"),
   ("ए", "e"), ("ऐ", "ai"), ("ओ", "o"), ("औ", "au"),
   ("क", "k"), ("ख", "kh"), ("ग", "g"), ("घ", "gh"), ("च", "ch"), ("छ", "chh"),
   ("ज", "j"), ("झ", "jh"), ("ट", "t"), ("ठ", "th"), ("ड", "d"), ("ढ", "dh"),
   ("ण", "n"),
   ("त", "t"), ("थ", "th"), ("द", "d"), ("ध", "dh"), ("न", "n"),
   ("प", "p"), ("फ", "ph"), ("ब", "b"), ("भ", "bh"), ("म", "m"),
   ("य", "y"), ("र", "r"), ("ल", "l"), ("व", "v"), ("श", "sh"), ("ष", "sh"),
   ("स", "s"), ("ह", "h"),
   ("ं", "n"), ("ँ", "n"), ("ः", "h"), ("़", "")]

/-- `toRomanHindi` (app.js lines 54-68): fold the rule table over the
input in order, then — only afterwards — apply the two whole-word
replacements of line 67. -/
def toRomanHindi (s : String) : String :=
  let out := hindiRules.foldl (fun acc pr => applyRule acc pr.1 pr.2) s
  applyRule (applyRule out "है" "hai") "नहीं" "nahi"

theorem dedupeGo_sublist (items : List FeedItem) :
    ∀ seen, List.Sublist (dedupeGo items seen) items := by
  induction items with
  | nil => intro seen; simp [dedupeGo]
  | cons i rest ih =>
    intro seen
    by_cases h : i.link ∈ seen
    · simp only [dedupeGo, if_pos h]
      exact List.Sublist.cons i (ih seen)
    · simp only [dedupeGo, if_neg h]
      exact List.Sublist.cons₂ i (ih (i.link :: seen))

theorem mem_map_link_dedupeGo (items : List FeedItem) :
    ∀ seen a, a ∈ (dedupeGo items seen).map FeedItem.link ↔
      a ∈ items.map FeedItem.link ∧ a ∉ seen := by
  induction items with
  | nil => intro seen a; simp [dedupeGo]
  | cons i rest ih =>
    intro seen a
    by_cases h : i.link ∈ seen
    · simp only [dedupeGo, if_pos h, List.map_cons, List.mem_cons, ih]
      constructor
      · rintro ⟨hm, hs⟩; exact ⟨Or.inr hm, hs⟩
      · rintro ⟨hm | hm, hs⟩
        · exact absurd (hm ▸ h) hs
        · exact ⟨hm, hs⟩
    · simp only [dedupeGo, if_neg h, List.map_cons, List.mem_cons, ih]
      constructor
      · rintro (rfl | ⟨hm, hs⟩)
        · exact ⟨Or.inl rfl, h⟩
        · exact ⟨Or.inr hm, fun hx => hs (Or.inr hx)⟩
      · rintro ⟨hm | hm, hs⟩
        · exact Or.inl hm
        · by_cases hai : a = i.link
          · exact Or.inl hai
          · exact Or.inr ⟨hm, fun hx => hx.elim hai hs⟩

theorem nodup_map_link_dedupeGo (items : List FeedItem) :
    ∀ seen, ((dedupeGo items seen).map FeedItem.link).Nodup := by
  induction items with
  | nil => intro seen; simp [dedupeGo]
  | cons i rest ih =>
    intro seen
    by_cases h : i.link ∈ seen
    · simp only [dedupeGo, if_pos h]; exact ih seen
    · simp only [dedupeGo, if_neg h, List.map_cons, List.nodup_cons]
      refine ⟨fun hc => ?_, ih (i.link :: seen)⟩
      have := (mem_map_link_dedupeGo rest (i.link :: seen) i.link).mp hc
      exact this.2 (List.mem_cons_self _ _)

theorem dedupeGo_first_occurrence (items : List FeedItem) :
    ∀ seen x, x ∈ dedupeGo items seen →
      x.link ∉ seen ∧ items.find? (fun j => j.link == x.link) = some x := by
  induction items with
  | nil => intro seen x hx; simp [dedupeGo] at hx
  | cons i rest ih =>
    intro seen x hx
    by_cases h : i.link ∈ seen
    · rw [dedupeGo, if_pos h] at hx
      obtain ⟨hns, hfind⟩ := ih seen x hx
      have hne : i.link ≠ x.link := fun he => hns (he ▸ h)
      refine ⟨hns, ?_⟩
      rw [List.find?_cons_of_neg, hfind]
      simpa using hne
    · rw [dedupeGo, if_neg h] at hx
      rcases List.mem_cons.mp hx with rfl | hx'
      · refine ⟨h, ?_⟩
        rw [List.find?_cons_of_pos]
        simp
      · obtain ⟨hns, hfind⟩ := ih (i.link :: seen) x hx'
        have hne : i.link ≠ x.link := fun he => hns (he ▸ List.mem_cons_self _ _)
        refine ⟨fun hs => hns (List.mem_cons_of_mem _ hs), ?_⟩
        rw [List.find?_cons_of_neg, hfind]
        simpa using hne

theorem dedupeByLink_length_eq (items : List FeedItem) :
    (dedupeByLink items).length = (items.map FeedItem.link).toFinset.card := by
  have hnd : ((dedupeByLink items).map FeedItem.link).Nodup :=
    nodup_map_link_dedupeGo items []
  have hlen : (dedupeByLink items).length
      = ((dedupeByLink items).map FeedItem.link).length := by
    simp
  rw [hlen, ← List.toFinset_card_of_nodup hnd]
  congr 1
  ext a
  simp only [List.mem_toFinset]
  rw [dedupeByLink, mem_map_link_dedupeGo]
  simp

theorem dedupeGo_of_fresh_nodup (l : List FeedItem) :
    ∀ seen, (∀ x ∈ l, x.link ∉ seen) → (l.map FeedItem.link).Nodup →
      dedupeGo l seen = l := by
  induction l with
  | nil => intro seen _ _; rfl
  | cons i rest ih =>
    intro seen hfresh hnd
    rw [List.map_cons, List.nodup_cons] at hnd
    rw [dedupeGo, if_neg (hfresh i (List.mem_cons_self _ _))]
    congr 1
    refine ih (i.link :: seen) (fun x hx hmem => ?_) hnd.2
    rcases List.mem_cons.mp hmem with he | hs
    · exact hnd.1 (he ▸ List.mem_map_of_mem FeedItem.link hx)
    · exact hfresh x (List.mem_cons_of_mem _ hx) hs

/-- Claim C1: `dedupeByLink` returns a subsequence of its input whose `link`
values are pairwise distinct, every kept item is the first occurrence of its
link, no order-preserving link-distinct subsequence is longer, and the output
is no longer than the input (app.js lines 69-71). -/
theorem dedupeByLink_spec (items : List FeedItem) :
    List.Sublist (dedupeByLink items) items ∧
    ((dedupeByLink items).map FeedItem.link).Nodup ∧
    (∀ x ∈ dedupeByLink items, items.find? (fun j => j.link == x.link) = some x) ∧
    (∀ l : List FeedItem, List.Sublist l items → (l.map FeedItem.link).Nodup →
      l.length ≤ (dedupeByLink items).length) ∧
    (dedupeByLink items).length ≤ items.length := by
  refine ⟨dedupeGo_sublist items [], nodup_map_link_dedupeGo items [],
    fun x hx => (dedupeGo_first_occurrence items [] x hx).2, ?_, ?_⟩
  · intro l hsub hnd
    have h1 : l.length = (l.map FeedItem.link).toFinset.card := by
      rw [List.toFinset_card_of_nodup hnd, List.length_map]
    rw [h1, dedupeByLink_length_eq]
    apply Finset.card_le_card
    intro a ha
    rw [List.mem_toFinset] at ha ⊢
    exact (hsub.map FeedItem.link).subset ha
  · exact (dedupeGo_sublist items []).length_le

/-- Witness for C1 at a concrete input with one duplicated link. -/
theorem dedupeByLink_spec_witness :
    ([⟨"t1", "L1", "", [], none, "s", none⟩,
      ⟨"t2", "L2", "", [], none, "s", none⟩] : List FeedItem).length ≤
      (dedupeByLink [⟨"t1", "L1", "", [], none, "s", none⟩,
        ⟨"t2", "L2", "", [], none, "s", none⟩,
        ⟨"t3", "L1", "", [], none, "s", none⟩]).length :=
  (dedupeByLink_spec [⟨"t1", "L1", "", [], none, "s", none⟩,
      ⟨"t2", "L2", "", [], none, "s", none⟩,
      ⟨"t3", "L1", "", [], none, "s", none⟩]).2.2.2.1
    [⟨"t1", "L1", "", [], none, "s", none⟩, ⟨"t2", "L2", "", [], none, "s", none⟩]
    (by decide) (by decide)

/-- Claim C9: `dedupeByLink` is idempotent: applying it to its own output
returns that output unchanged (app.js lines 69-71). -/
theorem dedupeByLink_idempotent (items : List FeedItem) :
    dedupeByLink (dedupeByLink items) = dedupeByLink items :=
  dedupeGo_of_fresh_nodup (dedupeByLink items) []
    (fun _ _ hmem => (List.not_mem_nil _) hmem)
    (nodup_map_link_dedupeGo items [])

theorem push_eq_take {buf : List StudioPost} (p : StudioPost)
    (h : buf.length ≤ studioMax) : push buf p = (p :: buf).take studioMax := by
  unfold push
  by_cases hlen : (p :: buf).length > studioMax
  · have hb : buf.length = studioMax := by
      simp only [List.length_cons] at hlen
      omega
    rw [if_pos hlen, List.dropLast_eq_take]
    simp [hb]
  · rw [if_neg hlen, List.take_of_length_le (by omega)]

theorem foldl_push_eq (ps : List StudioPost) :
    ∀ buf, buf.length ≤ studioMax →
      ps.foldl push buf = (ps.reverse ++ buf).take studioMax := by
  induction ps with
  | nil => intro buf h; simp [List.take_of_length_le h]
  | cons p rest ih =>
    intro buf h
    rw [List.foldl_cons, ih (push buf p) (by
      rw [push_eq_take p h]; simp)]
    rw [push_eq_take p h, List.reverse_cons, List.append_assoc,
      List.take_append_eq_append_take, List.take_append_eq_append_take,
      List.take_take]
    have : min studioMax (studioMax - rest.reverse.length) =
        studioMax - rest.reverse.length := Nat.min_eq_right (Nat.sub_le _ _)
    simp [this]

theorem pushAll_eq_take (ps : List StudioPost) :
    pushAll ps = ps.reverse.take studioMax := by
  rw [pushAll, foldl_push_eq ps [] (by simp [studioMax])]
  simp

/-- Claim C2: Starting from the empty buffer, after any sequence of pushes the
studio buffer holds exactly the `min n 50` most recent posts,
most-recent-first (`pushAll ps = ps.reverse.take 50`); its size never
exceeds 50; and after 51 pushes of distinct posts the size is 50 and the
first-pushed post is gone (app.js lines 114, 252, 262). -/
theorem studioBuffer_spec (ps : List StudioPost) :
    pushAll ps = ps.reverse.take 50 ∧
    (pushAll ps).length = min ps.length 50 ∧
    (pushAll ps).length ≤ 50 ∧
    (ps.Nodup → ps.length = 51 →
      ∀ p, ps.head? = some p → p ∉ pushAll ps) := by
  have he : pushAll ps = ps.reverse.take 50 := pushAll_eq_take ps
  refine ⟨he, ?_, ?_, ?_⟩
  · rw [he, List.length_take, List.length_reverse, Nat.min_comm]
  · rw [he, List.length_take]; exact Nat.min_le_left _ _
  · intro hnd hlen p hp hmem
    cases ps with
    | nil => simp at hp
    | cons q rest =>
      have hq : q = p := by simpa using hp
      subst hq
      rw [he, List.reverse_cons] at hmem
      have hrlen : rest.reverse.length = 50 := by
        simp at hlen ⊢; omega
      rw [List.take_append_eq_append_take, hrlen] at hmem
      simp only [Nat.sub_self, List.take_zero, List.append_nil] at hmem
      have hpr : q ∈ rest := by
        have := List.mem_of_mem_take hmem
        simpa using this
      exact (List.nodup_cons.mp hnd).1 hpr

theorem keywordBoost_le_two (t : Option String) : keywordBoost t ≤ 2 := by
  unfold keywordBoost; split <;> norm_num

theorem one_le_keywordBoost (t : Option String) : 1 ≤ keywordBoost t := by
  unfold keywordBoost; split <;> norm_num

/-- Claim C3: Every collected entry's score equals
`keywordBoost / max(1, ageMinutes)`; and an entry whose publish time is
missing or unparseable gets an age of at least 99999 minutes — effectively
infinite — so it scores strictly below any entry with a valid timestamp at
most 10 minutes old (app.js lines 154-158; `now ≥ 1.6e12` ms says the clock
reads a date after Sep 2020, as any run of this service does). -/
theorem breakingScore_spec :
    (∀ (now : ℤ) (e : BreakingEntry),
      score now e = keywordBoost e.title / max 1 (ageMin now e.pub)) ∧
    (∀ (now t : ℤ) (e₁ e₂ : BreakingEntry),
      (1600000000000 : ℤ) ≤ now →
      (e₁.pub = PubField.missing ∨ e₁.pub = PubField.unparseable) →
      e₂.pub = PubField.valid t → 0 ≤ now - t → now - t ≤ 600000 →
      99999 ≤ ageMin now e₁.pub ∧ score now e₁ < score now e₂) := by
  constructor
  · intro now e
    rw [score, mul_one_div]
  · intro now t e₁ e₂ hn h1 h2 ht0 ht
    have hage1 : (99999 : ℚ) ≤ ageMin now e₁.pub := by
      rcases h1 with h | h <;> rw [h]
      · show (99999 : ℚ) ≤ ((now - 0 : ℤ) : ℚ) / 60000
        rw [le_div_iff₀ (by norm_num)]
        push_cast
        have : (1600000000000 : ℚ) ≤ (now : ℚ) := by exact_mod_cast hn
        linarith
      · exact le_refl _
    have ha1 : (99999 : ℚ) ≤ max 1 (ageMin now e₁.pub) :=
      le_trans hage1 (le_max_right _ _)
    have hs1 : score now e₁ ≤ 2 / 99999 := by
      rw [score, mul_one_div]
      exact div_le_div₀ (by norm_num) (keywordBoost_le_two _) (by norm_num) ha1
    have hage2 : ageMin now e₂.pub ≤ 10 := by
      rw [h2]
      show ((now - t : ℤ) : ℚ) / 60000 ≤ 10
      rw [div_le_iff₀ (by norm_num)]
      have : ((now - t : ℤ) : ℚ) ≤ 600000 := by exact_mod_cast ht
      linarith
    have ha2 : max 1 (ageMin now e₂.pub) ≤ 10 :=
      max_le (by norm_num) hage2
    have ha2pos : (0 : ℚ) < max 1 (ageMin now e₂.pub) :=
      lt_of_lt_of_le one_pos (le_max_left _ _)
    have hs2 : (1 : ℚ) / 10 ≤ score now e₂ := by
      rw [score, mul_one_div]
      exact div_le_div₀ (le_trans zero_le_one (one_le_keywordBoost _))
        (one_le_keywordBoost _) ha2pos ha2
    refine ⟨hage1, lt_of_le_of_lt hs1 (lt_of_lt_of_le (by norm_num) hs2)⟩

/-- Witness for C3: a concrete clock reading, an entry with a missing
publish date, and an entry published one minute earlier. -/
theorem breakingScore_spec_witness :
    score 1600000000000 ⟨some "no date", "l1", PubField.missing⟩ <
      score 1600000000000 ⟨some "fresh", "l2", PubField.valid 1599999940000⟩ :=
  (breakingScore_spec.2 1600000000000 1599999940000
    ⟨some "no date", "l1", PubField.missing⟩
    ⟨some "fresh", "l2", PubField.valid 1599999940000⟩
    (by norm_num) (Or.inl rfl) rfl (by norm_num) (by norm_num)).2

/-- Witness for C2: 51 distinct posts, the first-pushed one absent. -/
theorem studioBuffer_spec_witness :
    (pushAll ((List.range 51).map
        (fun n : Nat => (⟨(n : Int), "text", none, "", "", 0, []⟩ : StudioPost)))).length =
      min ((List.range 51).map
        (fun n : Nat => (⟨(n : Int), "text", none, "", "", 0, []⟩ : StudioPost))).length 50 ∧
    (⟨0, "text", none, "", "", 0, []⟩ : StudioPost) ∉
      pushAll ((List.range 51).map
        (fun n : Nat => (⟨(n : Int), "text", none, "", "", 0, []⟩ : StudioPost))) := by
  have hnd : ((List.range 51).map
      (fun n : Nat => (⟨(n : Int), "text", none, "", "", 0, []⟩ : StudioPost))).Nodup := by
    refine List.Nodup.map ?_ (List.nodup_range 51)
    intro a b hab
    have : (a : Int) = (b : Int) := congrArg StudioPost.id hab
    exact_mod_cast this
  have hlen : ((List.range 51).map
      (fun n : Nat => (⟨(n : Int), "text", none, "", "", 0, []⟩ : StudioPost))).length = 51 := by
    simp
  have hhd : ((List.range 51).map
      (fun n : Nat => (⟨(n : Int), "text", none, "", "", 0, []⟩ : StudioPost))).head? =
      some ⟨0, "text", none, "", "", 0, []⟩ := by
    have : List.range 51 = 0 :: List.range' 1 50 := by decide
    simp [this]
  exact ⟨(studioBuffer_spec _).2.1,
    (studioBuffer_spec _).2.2.2 hnd hlen _ hhd⟩

/-- Counterexample to claim C4: A delivery whose shared-secret check fails is
answered with 401, not with a success status: the claim that ingestion
always reports success to the transport fails on the code
(app.js line 257). -/
theorem webhook_auth_counterexample :
    (telegramWebhook (some "key") (some "wrong") ⟨none, none⟩ []).1 = 401 ∧
    (401 : Nat) ≠ 200 := by
  constructor
  · rfl
  · decide

/-- Claim C4 as amended: Every delivery that passes the shared-secret check
(no admin key configured, or a matching header) is acknowledged with
status 200, and a delivery of unrecognized shape (neither channel
broadcast nor private message) is silently ignored: it produces no
buffered item (app.js lines 253-283). -/
theorem webhook_ack_spec (adminKey secret : Option String) (u : TgUpdate)
    (buf : List StudioPost)
    (hauth : adminKeySet adminKey = false ∨ secret = adminKey) :
    (telegramWebhook adminKey secret u buf).1 = 200 ∧
    (chatTypeOf u.channel_post ≠ some "channel" →
      chatTypeOf u.message ≠ some "private" →
      (telegramWebhook adminKey secret u buf).2 = buf) := by
  have hcond : ¬(adminKeySet adminKey ∧ secret ≠ adminKey) := by
    rcases hauth with h | h
    · intro hc; rw [h] at hc; exact Bool.false_ne_true hc.1
    · intro hc; exact hc.2 h
  rw [telegramWebhook, if_neg hcond]
  refine ⟨rfl, fun hch hmsg => ?_⟩
  show handleUpdate u buf = buf
  rw [handleUpdate, if_neg hch, if_neg hmsg]

/-- Witness for C4 (amended): no admin key configured, empty update. -/
theorem webhook_ack_spec_witness :
    (telegramWebhook none none ⟨none, none⟩ []).1 = 200 ∧
    (telegramWebhook none none ⟨none, none⟩ []).2 = [] :=
  ⟨(webhook_ack_spec none none ⟨none, none⟩ [] (Or.inl rfl)).1,
   (webhook_ack_spec none none ⟨none, none⟩ [] (Or.inl rfl)).2
     (by decide) (by decide)⟩

/-- Counterexample to claim C5: A delivery carrying both a photo list and a
video is stored with kind "video", not "photo": the two `if`s of app.js
lines 266-267 are sequential, so the video check overwrites the photo
one — the claimed photo > video priority fails on the code. -/
theorem mediaPriority_counterexample :
    (mkPost ⟨7, some "channel", some [⟨"ph"⟩], some ⟨"vid"⟩, none,
        some "cap", 0⟩).type = "video" ∧
    ("video" : String) ≠ "photo" := by
  constructor
  · rfl
  · decide

/-- Claim C5 as amended: The stored kind follows the priority
video > photo > text: a video attachment always wins; a nonempty photo
list wins only when no video is present, and then the media reference is
the last (highest-resolution) variant; otherwise the kind is text with no
media reference (app.js lines 264-279). -/
theorem mediaPriority_spec (m : TgMessage) :
    (∀ v, m.video = some v →
      (mkPost m).type = "video" ∧ (mkPost m).file_id = some v.file_id) ∧
    (m.video = none → ∀ l, m.photo = some l → l ≠ [] →
      (mkPost m).type = "photo" ∧
      (mkPost m).file_id = l.getLast?.map PhotoSize.file_id) ∧
    (m.video = none → (m.photo = none ∨ m.photo = some []) →
      (mkPost m).type = "text" ∧ (mkPost m).file_id = none) := by
  refine ⟨fun v hv => ?_, fun hv l hl hne => ?_, fun hv hp => ?_⟩
  · simp [mkPost, classifyMedia, hv]
  · have : l.length ≠ 0 := fun h => hne (List.length_eq_zero.mp h)
    simp [mkPost, classifyMedia, hv, hl, this]
  · rcases hp with h | h <;> simp [mkPost, classifyMedia, hv, h]

/-- Witness for C5 (amended): a private message with only a two-variant
photo attachment is stored as a photo keyed by the last variant. -/
theorem mediaPriority_spec_witness :
    (mkPost ⟨8, some "private", some [⟨"small"⟩, ⟨"big"⟩], none,
        none, some "c", 1⟩).type = "photo" ∧
    (mkPost ⟨8, some "private", some [⟨"small"⟩, ⟨"big"⟩], none,
        none, some "c", 1⟩).file_id = some "big" :=
  ⟨((mediaPriority_spec ⟨8, some "private", some [⟨"small"⟩, ⟨"big"⟩], none,
        none, some "c", 1⟩).2.1 rfl [⟨"small"⟩, ⟨"big"⟩] rfl (by decide)).1,
   by
    have := ((mediaPriority_spec ⟨8, some "private",
        some [⟨"small"⟩, ⟨"big"⟩], none, none, some "c", 1⟩).2.1
        rfl [⟨"small"⟩, ⟨"big"⟩] rfl (by decide)).2
    simpa using this⟩

/-- Counterexample to claim C6: When a delivery carries both a (nonempty)
`text` field and a `caption`, the stored body is the `text` field, not the
caption: `(m.text || m.caption || "")` tries `text` first (app.js lines
268 and 278), so the claimed caption-over-text precedence fails. -/
theorem captionPrecedence_counterexample :
    (mkPost ⟨9, some "private", none, none, some "from text",
        some "from caption", 0⟩).caption = "from text" ∧
    ("from text" : String) ≠ "from caption" := by
  constructor
  · rfl
  · decide

/-- Claim C6 as amended: The `text` field takes precedence: whenever it is
present and nonempty the stored body is the `text` field and the stored
title is its first line truncated to 100 characters, regardless of any
caption; the caption is used only when the `text` field is absent or empty
(app.js lines 268, 271, 278, 279). -/
theorem captionPrecedence_spec (m : TgMessage) (s : String)
    (hs : m.text = some s) (hne : s ≠ "") :
    (mkPost m).caption = s ∧
    (mkPost m).title = String.mk ((firstLineChars s.toList).take 100) := by
  constructor
  · simp [mkPost, bodyOf, jsOrString, hs, hne]
  · simp [mkPost, titleOf, bodyOf, jsOrString, hs, hne]

/-- Witness for C6 (amended): both fields present, text wins. -/
theorem captionPrecedence_spec_witness :
    (mkPost ⟨9, some "private", none, none, some "line1\nline2",
        some "cap", 0⟩).caption = "line1\nline2" ∧
    (mkPost ⟨9, some "private", none, none, some "line1\nline2",
        some "cap", 0⟩).title =
      String.mk ((firstLineChars "line1\nline2".toList).take 100) :=
  ⟨(captionPrecedence_spec ⟨9, some "private", none, none,
      some "line1\nline2", some "cap", 0⟩ "line1\nline2" rfl (by decide)).1,
   (captionPrecedence_spec ⟨9, some "private", none, none,
      some "line1\nline2", some "cap", 0⟩ "line1\nline2" rfl (by decide)).2⟩

theorem urlsValue_of_unknown (cat : String)
    (hown : List.lookup cat sources = none)
    (hproto : cat ∉ objectPrototypeKeys) :
    urlsValue cat = SourcesRead.arr indiaUrls := by
  rw [urlsValue, sourcesRead, hown]
  simp [hproto]

theorem feedHandler_ok_of_unknown (cat : String)
    (fetchItems : String → List FeedItem)
    (hown : List.lookup cat sources = none)
    (hproto : cat ∉ objectPrototypeKeys) :
    feedHandler (some cat) fetchItems =
      FeedResponse.ok cat (dedupeByLink (collectItems fetchItems indiaUrls)) := by
  show (match urlsValue ((some cat).getD "India") with
    | .arr us => FeedResponse.ok ((some cat).getD "India")
        (dedupeByLink (collectItems fetchItems us))
    | .protoValue => FeedResponse.failed
    | .undefinedRead => FeedResponse.failed) = _
  rw [Option.getD_some, urlsValue_of_unknown cat hown hproto]

theorem feedHandler_status_cases (categoryParam : Option String)
    (fetchItems : String → List FeedItem) :
    (feedHandler categoryParam fetchItems).status = 200 ∨
      (feedHandler categoryParam fetchItems).status = 500 := by
  rw [feedHandler]
  cases urlsValue (categoryParam.getD "India") <;>
    simp [FeedResponse.status]

/-- Counterexample to claim C8: the category "constructor" is not a key of
the source table, yet the handler neither falls back to India nor answers
200: the property read walks the prototype chain and returns Object's
constructor function, which is truthy, so `urls.map` (app.js line 124)
throws and the catch (line 145) answers 500 `feed_failed`. -/
theorem feed_fallback_counterexample :
    List.lookup "constructor" sources = none ∧
    feedHandler (some "constructor") (fun _ => []) = FeedResponse.failed ∧
    (feedHandler (some "constructor") (fun _ => [])).status = 500 ∧
    (500 : Nat) ≠ 200 :=
  ⟨by decide, rfl, rfl, by decide⟩

/-- Claim C8 as amended: a requested category that is neither a key of the
source table nor an inherited `Object.prototype` property name is served
from the "India" source list with status 200; categories that do hit the
prototype chain fail with 500, so no category name ever produces a 4xx
(app.js lines 119-122, 124, 144-145). -/
theorem feed_fallback_spec (cat : String) (fetchItems : String → List FeedItem)
    (hown : List.lookup cat sources = none)
    (hproto : cat ∉ objectPrototypeKeys) :
    urlsValue cat = SourcesRead.arr indiaUrls ∧
    (feedHandler (some cat) fetchItems).status = 200 ∧
    feedHandler (some cat) fetchItems =
      FeedResponse.ok cat (dedupeByLink (collectItems fetchItems indiaUrls)) ∧
    (∀ (categoryParam : Option String) (f : String → List FeedItem),
      (feedHandler categoryParam f).status = 200 ∨
        (feedHandler categoryParam f).status = 500) :=
  ⟨urlsValue_of_unknown cat hown hproto,
   by rw [feedHandler_ok_of_unknown cat fetchItems hown hproto]; rfl,
   feedHandler_ok_of_unknown cat fetchItems hown hproto,
   feedHandler_status_cases⟩

/-- Witness for C8 (amended): the unknown, non-prototype category
"Bollywood" with no fetched items. -/
theorem feed_fallback_spec_witness :
    urlsValue "Bollywood" = SourcesRead.arr indiaUrls ∧
    (feedHandler (some "Bollywood") (fun _ => [])).status = 200 :=
  ⟨(feed_fallback_spec "Bollywood" (fun _ => []) (by decide) (by decide)).1,
   (feed_fallback_spec "Bollywood" (fun _ => []) (by decide) (by decide)).2.1⟩

/-- Counterexample to claim C10: for the requested name "constructor" the
response is the 500 `feed_failed` body, which carries no `category` field
at all — the name is not echoed (app.js lines 122, 124, 145). -/
theorem feed_category_echo_counterexample :
    (feedHandler (some "constructor") (fun _ => [])).categoryField = none ∧
    (none : Option String) ≠ some "constructor" :=
  ⟨rfl, by decide⟩

/-- Claim C10 as amended: for every requested name that is not an inherited
`Object.prototype` property name, the response's `category` field echoes
the requested name verbatim — in particular an unrecognized such name is
served the "India" items but labeled with the requested name, not with
"India" (app.js lines 121-122, 144). -/
theorem feed_category_echo_spec (cat : String)
    (fetchItems : String → List FeedItem)
    (hproto : cat ∉ objectPrototypeKeys) :
    (feedHandler (some cat) fetchItems).categoryField = some cat ∧
    (List.lookup cat sources = none →
      (feedHandler (some cat) fetchItems).itemsField =
        some (dedupeByLink (collectItems fetchItems indiaUrls))) := by
  constructor
  · cases hown : List.lookup cat sources with
    | some us =>
      show (match urlsValue ((some cat).getD "India") with
        | .arr us => FeedResponse.ok ((some cat).getD "India")
            (dedupeByLink (collectItems fetchItems us))
        | .protoValue => FeedResponse.failed
        | .undefinedRead => FeedResponse.failed).categoryField = some cat
      rw [Option.getD_some, urlsValue, sourcesRead, hown]
      rfl
    | none =>
      rw [feedHandler_ok_of_unknown cat fetchItems hown hproto]
      rfl
  · intro hown
    rw [feedHandler_ok_of_unknown cat fetchItems hown hproto]
    rfl

/-- Witness for C10 (amended): the unknown name "Movies" is echoed, not
"India", over the India items. -/
theorem feed_category_echo_spec_witness :
    (feedHandler (some "Movies") (fun _ => [])).categoryField = some "Movies" ∧
    (feedHandler (some "Movies") (fun _ => [])).itemsField =
      some (dedupeByLink (collectItems (fun _ => []) indiaUrls)) :=
  ⟨(feed_category_echo_spec "Movies" (fun _ => []) (by decide)).1,
   (feed_category_echo_spec "Movies" (fun _ => []) (by decide)).2 (by decide)⟩

/-- Claim C7, code-bug evidence: The conjunct rules do run first
(`क्ष ↦ ksh`), but the whole-word substitutions of line 67 run *after*
the single-character pass, whose `ह ↦ h` rule has already destroyed any
occurrence of "है" or "नहीं": the input "है" yields "hै", not the
configured "hai", and "नहीं" yields "nhीn", not "nahi". -/
theorem toRomanHindi_wholeWord_dead :
    toRomanHindi "क्ष" = "ksh" ∧
    toRomanHindi "है" = "hै" ∧ toRomanHindi "है" ≠ "hai" ∧
    toRomanHindi "नहीं" = "nhीn" ∧ toRomanHindi "नहीं" ≠ "nahi" := by
  refine ⟨?_, ?_, ?_, ?_, ?_⟩ <;> decide

end NewsPulse
